import Mathlib

/-!
Shallow embedding of the `ahv` crate's safe API layer (`src/api/mod.rs` and
the constants of `src/ffi/types.rs`).

Modelling conventions:
- machine integers (`u64`, `u32`, `usize`) are `Nat`; counter arithmetic
  applies `% 2 ^ 64` where the source increments a `u64`;
- the host buffer behind `VirtualMachineAllocation.base_address` is modelled
  by its byte contents `data : List Nat` (whose length plays the role of
  `layout.size()`), together with a flag `base_is_null` recording whether
  `alloc_zeroed` returned a null pointer (the source never checks it);
- each hypervisor-backend FFI call (`hv_vm_map`, `hv_vm_unmap`,
  `hv_vm_protect`, `hv_vm_destroy`) is an external fallible call; its
  `hv_return_t` status is passed in as an explicit argument, and every
  mutating operation additionally reports the list of backend calls it made;
- Rust `&mut self` methods become functions returning the updated state;
  an early `return Err(..)` leaves the state exactly as it was.
-/

namespace Ahv

/-- Modulus of `u64` arithmetic. -/
def U64_MOD : Nat := 2 ^ 64

/-- Success constant `HV_SUCCESS` of `ffi/types.rs`. -/
def HV_SUCCESS : Nat := 0

/-- Error constant `HV_ERROR`. -/
def HV_ERROR : Nat := 0xfae94001

/-- Error constant `HV_BUSY`. -/
def HV_BUSY : Nat := 0xfae94002

/-- Error constant `HV_BAD_ARGUMENT`. -/
def HV_BAD_ARGUMENT : Nat := 0xfae94003

/-- Error constant `HV_ILLEGAL_GUEST_STATE`. -/
def HV_ILLEGAL_GUEST_STATE : Nat := 0xfae94004

/-- Error constant `HV_NO_RESOURCES`. -/
def HV_NO_RESOURCES : Nat := 0xfae94005

/-- Error constant `HV_NO_DEVICE`. -/
def HV_NO_DEVICE : Nat := 0xfae94006

/-- Error constant `HV_DENIED`. -/
def HV_DENIED : Nat := 0xfae94007

/-- Error constant `HV_UNSUPPORTED`. -/
def HV_UNSUPPORTED : Nat := 0xfae9400f

/-- Memory flag `HV_MEMORY_READ` (`1 << 0`). -/
def HV_MEMORY_READ : Nat := 1

/-- Memory flag `HV_MEMORY_WRITE` (`1 << 1`). -/
def HV_MEMORY_WRITE : Nat := 2

/-- Memory flag `HV_MEMORY_EXEC` (`1 << 2`). -/
def HV_MEMORY_EXEC : Nat := 4

/-- Exit reason constant `HV_EXIT_REASON_CANCELED`. -/
def HV_EXIT_REASON_CANCELED : Nat := 0

/-- Exit reason constant `HV_EXIT_REASON_EXCEPTION`. -/
def HV_EXIT_REASON_EXCEPTION : Nat := 1

/-- Exit reason constant `HV_EXIT_REASON_VTIMER_ACTIVATED`. -/
def HV_EXIT_REASON_VTIMER_ACTIVATED : Nat := 2

/-- Exit reason constant `HV_EXIT_REASON_UNKNOWN`. -/
def HV_EXIT_REASON_UNKNOWN : Nat := 3

/-- The error enum `HypervisorError` of `api/mod.rs`. -/
inductive HypervisorError where
  | Error
  | Busy
  | BadArgument
  | IllegalGuestState
  | NoResources
  | NoDevice
  | Denied
  | Unsupported
  | InvalidHandle
  | AllocationStillMapped
  | Unknown (code : Nat)
deriving DecidableEq, Repr

/-- The match arms of `impl From<hv_return_t> for HypervisorError`.  In the
source the `HV_SUCCESS` arm panics; the conversion is only ever invoked on a
non-success status (it is guarded inside `convert_hv_return`), so that arm is
unreachable and this function is only applied to non-success values. -/
def HypervisorError.of_return (value : Nat) : HypervisorError :=
  if value = HV_ERROR then .Error
  else if value = HV_BUSY then .Busy
  else if value = HV_BAD_ARGUMENT then .BadArgument
  else if value = HV_ILLEGAL_GUEST_STATE then .IllegalGuestState
  else if value = HV_NO_RESOURCES then .NoResources
  else if value = HV_NO_DEVICE then .NoDevice
  else if value = HV_DENIED then .Denied
  else if value = HV_UNSUPPORTED then .Unsupported
  else .Unknown value

/-- The util `convert_hv_return` of `api/mod.rs`. -/
def convert_hv_return (value : Nat) : Except HypervisorError Unit :=
  if value = HV_SUCCESS then .ok () else .error (HypervisorError.of_return value)

/-- The struct `MemoryPermission` of `api/mod.rs`. -/
structure MemoryPermission where
  read : Bool
  write : Bool
  execute : Bool
deriving DecidableEq, Repr

/-- Constructor `MemoryPermission::new`. -/
def MemoryPermission.new (read write execute : Bool) : MemoryPermission :=
  { read := read, write := write, execute := execute }

/-- Constant `MemoryPermission::READ`. -/
def MemoryPermission.READ : MemoryPermission := MemoryPermission.new true false false

/-- Constant `MemoryPermission::WRITE`. -/
def MemoryPermission.WRITE : MemoryPermission := MemoryPermission.new false true false

/-- Constant `MemoryPermission::EXECUTE`. -/
def MemoryPermission.EXECUTE : MemoryPermission := MemoryPermission.new false false true

/-- Constant `MemoryPermission::READ_WRITE`. -/
def MemoryPermission.READ_WRITE : MemoryPermission := MemoryPermission.new true true false

/-- Constant `MemoryPermission::READ_EXECUTE`. -/
def MemoryPermission.READ_EXECUTE : MemoryPermission := MemoryPermission.new true false true

/-- Constant `MemoryPermission::READ_WRITE_EXECUTE`. -/
def MemoryPermission.READ_WRITE_EXECUTE : MemoryPermission := MemoryPermission.new true true true

/-- The conversion `impl From<MemoryPermission> for hv_memory_flags_t`:
OR one bit per set flag. -/
def hv_memory_flags_of (value : MemoryPermission) : Nat :=
  (if value.read then HV_MEMORY_READ else 0) |||
  (if value.write then HV_MEMORY_WRITE else 0) |||
  (if value.execute then HV_MEMORY_EXEC else 0)

/-- The struct `VirtualMachineMapping` of `api/mod.rs` (handles and `hv_ipa_t`
are `u64`, the size a `usize`; all are modelled as `Nat`). -/
structure VirtualMachineMapping where
  allocation_handle : Nat
  mapping_handle : Nat
  address : Nat
  size : Nat
  permission : MemoryPermission
deriving DecidableEq, Repr

/-- The method `Counter::get_next_value`: pre-increment the `u64` counter and
return the new value (u64 wrap-around modelled by the modulus). -/
def Counter.get_next_value (self : Nat) : Nat := (self + 1) % U64_MOD

/-- The struct `VirtualMachineAllocation` of `api/mod.rs`.  The host buffer at
`base_address` is modelled by its contents `data` (of length `layout.size()`);
`base_is_null` records whether the host reservation (`alloc_zeroed`) returned
a null pointer, which the source stores without checking. -/
structure VirtualMachineAllocation where
  data : List Nat
  base_is_null : Bool
  handle : Nat
deriving DecidableEq, Repr

/-- The constant `PAGE_SIZE` of `api/mod.rs`. -/
def PAGE_SIZE : Nat := 0x10000

/-- Size of `Layout::from_size_align(size, PAGE_SIZE).unwrap().pad_to_align()`:
the requested size rounded up to the next multiple of the page size. -/
def pad_to_align (size : Nat) : Nat := ((size + PAGE_SIZE - 1) / PAGE_SIZE) * PAGE_SIZE

/-- The constructor `VirtualMachineAllocation::new`: a zero-filled buffer of
the padded size.  `reservation_ok` is the outcome of the host `alloc_zeroed`
call; the source does not inspect it and proceeds identically either way. -/
def VirtualMachineAllocation.new (size : Nat) (reservation_ok : Bool) : VirtualMachineAllocation :=
  { data := List.replicate (pad_to_align size) 0
    base_is_null := !reservation_ok
    handle := 0 }

/-- The struct `VirtualMachine` of `api/mod.rs`. -/
structure VirtualMachine where
  allocation_counter : Nat
  mapping_counter : Nat
  allocation_list : List VirtualMachineAllocation
  mapping_list : List VirtualMachineMapping
deriving DecidableEq, Repr

/-- A call into the hypervisor backend made by a `VirtualMachine` operation,
with the arguments the source passes to the corresponding FFI function. -/
inductive BackendCall where
  | mapCall (guest_address : Nat) (size : Nat) (flags : Nat)
  | unmapCall (address : Nat) (size : Nat)
  | protectCall (address : Nat) (size : Nat) (flags : Nat)
  | destroyCall
deriving DecidableEq, Repr

/-- Result of a `&mut self` operation on `VirtualMachine`: the returned
`Result`, the state of the machine after the call, and the backend calls the
operation performed. -/
structure OpResult (α : Type) where
  res : Except HypervisorError α
  vm : VirtualMachine
  calls : List BackendCall

/-- The state built by `VirtualMachine::new` once `hv_vm_create` succeeded:
both counters at 0 and both registries empty. -/
def VirtualMachine.fresh : VirtualMachine :=
  { allocation_counter := 0
    mapping_counter := 0
    allocation_list := []
    mapping_list := [] }

/-- The constructor `VirtualMachine::new`, with `create_ret` the status
returned by the backend `hv_vm_create` call. -/
def VirtualMachine.new (create_ret : Nat) : Except HypervisorError VirtualMachine :=
  (convert_hv_return create_ret).map (fun _ => VirtualMachine.fresh)

/-- The loop of `VirtualMachine::find_allocation_by_handle`, scanning the list
front to back with its enumeration index. -/
def find_allocation_aux (l : List VirtualMachineAllocation) (handle : Nat) (index : Nat) :
    Except HypervisorError (Nat × VirtualMachineAllocation) :=
  match l with
  | [] => .error .InvalidHandle
  | entry :: rest =>
      if entry.handle = handle then .ok (index, entry)
      else find_allocation_aux rest handle (index + 1)

/-- The method `VirtualMachine::find_allocation_by_handle`. -/
def VirtualMachine.find_allocation_by_handle (self : VirtualMachine) (handle : Nat) :
    Except HypervisorError (Nat × VirtualMachineAllocation) :=
  find_allocation_aux self.allocation_list handle 0

/-- The loop of `VirtualMachine::find_mapping_by_handle`. -/
def find_mapping_aux (l : List VirtualMachineMapping) (handle : Nat) (index : Nat) :
    Except HypervisorError (Nat × VirtualMachineMapping) :=
  match l with
  | [] => .error .InvalidHandle
  | entry :: rest =>
      if entry.mapping_handle = handle then .ok (index, entry)
      else find_mapping_aux rest handle (index + 1)

/-- The method `VirtualMachine::find_mapping_by_handle`. -/
def VirtualMachine.find_mapping_by_handle (self : VirtualMachine) (handle : Nat) :
    Except HypervisorError (Nat × VirtualMachineMapping) :=
  find_mapping_aux self.mapping_list handle 0

/-- The method `VirtualMachine::is_allocation_mapped`: linear scan of the
mapping list for a record referencing the allocation handle. -/
def VirtualMachine.is_allocation_mapped (self : VirtualMachine) (handle : Nat) : Bool :=
  self.mapping_list.any (fun entry => entry.allocation_handle == handle)

/-- The method `VirtualMachine::allocate`: build the allocation, draw a fresh
handle from the allocation counter, push the record at the back, return `Ok`.
No backend call is made and no failure path exists in the source. -/
def VirtualMachine.allocate (self : VirtualMachine) (size : Nat) (reservation_ok : Bool) :
    OpResult Nat :=
  let allocation := VirtualMachineAllocation.new size reservation_ok
  let handle := Counter.get_next_value self.allocation_counter
  { res := .ok handle
    vm := { self with
              allocation_counter := handle
              allocation_list := self.allocation_list ++ [{ allocation with handle := handle }] }
    calls := [] }

/-- The method `VirtualMachine::deallocate`: look up the handle, refuse if a
mapping still references it, otherwise remove the record at the found index. -/
def VirtualMachine.deallocate (self : VirtualMachine) (allocation_handle : Nat) :
    OpResult Unit :=
  match self.find_allocation_by_handle allocation_handle with
  | .error e => { res := .error e, vm := self, calls := [] }
  | .ok (index, _) =>
      if self.is_allocation_mapped allocation_handle then
        { res := .error .AllocationStillMapped, vm := self, calls := [] }
      else
        { res := .ok ()
          vm := { self with allocation_list := self.allocation_list.eraseIdx index }
          calls := [] }

/-- The method `VirtualMachine::get_allocation_slice`: the full backing region
of the found allocation (`layout.size()` bytes starting at `base_address`). -/
def VirtualMachine.get_allocation_slice (self : VirtualMachine) (allocation_handle : Nat) :
    Except HypervisorError (List Nat) :=
  (self.find_allocation_by_handle allocation_handle).map (fun p => p.2.data)

/-- The method `VirtualMachine::get_allocation_slice_mut`; it performs the same
lookup as `get_allocation_slice` and yields a view of the same full region
(mutation through the view is modelled where it occurs, in `allocate_from`). -/
def VirtualMachine.get_allocation_slice_mut (self : VirtualMachine) (allocation_handle : Nat) :
    Except HypervisorError (List Nat) :=
  (self.find_allocation_by_handle allocation_handle).map (fun p => p.2.data)

/-- The method `VirtualMachine::allocate_from`: allocate `source.len()` bytes,
then copy `source` into the start of the fresh buffer through
`get_allocation_slice_mut` (the lookup is spelled out here because the write
through the mutable slice updates the backing buffer of the allocation found
at that index); if that lookup fails, report `NoResources`. -/
def VirtualMachine.allocate_from (self : VirtualMachine) (source : List Nat) (reservation_ok : Bool) :
    OpResult Nat :=
  let r := self.allocate source.length reservation_ok
  match r.res with
  | .error e => { res := .error e, vm := r.vm, calls := [] }
  | .ok allocation_handle =>
      match r.vm.find_allocation_by_handle allocation_handle with
      | .ok (index, allocation) =>
          { res := .ok allocation_handle
            vm := { r.vm with
                      allocation_list := r.vm.allocation_list.set index
                        { allocation with
                            data := source ++ allocation.data.drop source.length } }
            calls := [] }
      | .error _ => { res := .error .NoResources, vm := r.vm, calls := [] }

/-- The method `VirtualMachine::map`, with `backend_ret` the status of the
`hv_vm_map` backend call: look up the allocation, call the backend over the
allocation's full range, and only on success draw a mapping handle and push
the record. -/
def VirtualMachine.map (self : VirtualMachine) (allocation_handle : Nat)
    (guest_address : Nat) (permission : MemoryPermission) (backend_ret : Nat) :
    OpResult Nat :=
  match self.find_allocation_by_handle allocation_handle with
  | .error e => { res := .error e, vm := self, calls := [] }
  | .ok (_, allocation) =>
      let allocation_size := allocation.data.length
      let call := BackendCall.mapCall guest_address allocation_size (hv_memory_flags_of permission)
      match convert_hv_return backend_ret with
      | .error e => { res := .error e, vm := self, calls := [call] }
      | .ok _ =>
          let mapping_handle := Counter.get_next_value self.mapping_counter
          let virtual_mapping : VirtualMachineMapping :=
            { allocation_handle := allocation_handle
              mapping_handle := mapping_handle
              address := guest_address
              size := allocation_size
              permission := permission }
          { res := .ok mapping_handle
            vm := { self with
                      mapping_counter := mapping_handle
                      mapping_list := self.mapping_list ++ [virtual_mapping] }
            calls := [call] }

/-- The method `VirtualMachine::unmap`, with `backend_ret` the status of the
`hv_vm_unmap` backend call: look up the mapping, call the backend over its
exact range, and only on success remove the record. -/
def VirtualMachine.unmap (self : VirtualMachine) (mapping_handle : Nat) (backend_ret : Nat) :
    OpResult Unit :=
  match self.find_mapping_by_handle mapping_handle with
  | .error e => { res := .error e, vm := self, calls := [] }
  | .ok (index, mapping) =>
      let call := BackendCall.unmapCall mapping.address mapping.size
      match convert_hv_return backend_ret with
      | .error e => { res := .error e, vm := self, calls := [call] }
      | .ok _ =>
          { res := .ok ()
            vm := { self with mapping_list := self.mapping_list.eraseIdx index }
            calls := [call] }

/-- The method `VirtualMachine::reprotect`, with `backend_ret` the status of
the `hv_vm_protect` backend call: look up the mapping, call the backend, and
only on success update the stored permission in place (the source re-fetches
the entry with `get_mut(index)`, which always succeeds since `index` came from
the lookup; the in-place write is the `List.set` below). -/
def VirtualMachine.reprotect (self : VirtualMachine) (mapping_handle : Nat)
    (permission : MemoryPermission) (backend_ret : Nat) : OpResult Unit :=
  match self.find_mapping_by_handle mapping_handle with
  | .error e => { res := .error e, vm := self, calls := [] }
  | .ok (index, mapping) =>
      let call := BackendCall.protectCall mapping.address mapping.size (hv_memory_flags_of permission)
      match convert_hv_return backend_ret with
      | .error e => { res := .error e, vm := self, calls := [call] }
      | .ok _ =>
          { res := .ok ()
            vm := { self with
                      mapping_list := self.mapping_list.set index
                        { mapping with permission := permission } }
            calls := [call] }

/-- The method `VirtualMachine::get_mapping_info`. -/
def VirtualMachine.get_mapping_info (self : VirtualMachine) (mapping_handle : Nat) :
    Except HypervisorError VirtualMachineMapping :=
  (self.find_mapping_by_handle mapping_handle).map (fun p => p.2)

/-- The method `VirtualMachine::get_all_mapping_infos`: a by-value snapshot of
the mapping list. -/
def VirtualMachine.get_all_mapping_infos (self : VirtualMachine) : List VirtualMachineMapping :=
  self.mapping_list

/-- Backend statuses observed during teardown: the status `hv_vm_unmap` would
return for a given (address, size) range, and the status of `hv_vm_destroy`. -/
structure TeardownOracle where
  unmap_ret : Nat → Nat → Nat
  destroy_ret : Nat

/-- The loop of `impl Drop for VirtualMachine`: walk the snapshot of
`get_all_mapping_infos`, `unmap` each entry (the `.expect` panics on any
failure, modelled as `none`), then call `hv_vm_destroy` and `.expect` its
status.  The status fed to each `unmap` is the oracle's answer for the range
of the record the lookup inside `unmap` finds. -/
def drop_loop (oracle : TeardownOracle) (vm : VirtualMachine) :
    List VirtualMachineMapping → Option VirtualMachine × List BackendCall
  | [] =>
      match convert_hv_return oracle.destroy_ret with
      | .ok _ => (some vm, [BackendCall.destroyCall])
      | .error _ => (none, [BackendCall.destroyCall])
  | mapping :: rest =>
      let ret :=
        match vm.find_mapping_by_handle mapping.mapping_handle with
        | .ok (_, found) => oracle.unmap_ret found.address found.size
        | .error _ => HV_SUCCESS
      let r := vm.unmap mapping.mapping_handle ret
      match r.res with
      | .ok _ =>
          let r2 := drop_loop oracle r.vm rest
          (r2.1, r.calls ++ r2.2)
      | .error _ => (none, r.calls)

/-- The destructor `impl Drop for VirtualMachine`: `none` models the panic of
an `.expect` during teardown; the second component lists the backend calls
made before returning or panicking. -/
def VirtualMachine.drop (self : VirtualMachine) (oracle : TeardownOracle) :
    Option VirtualMachine × List BackendCall :=
  drop_loop oracle self self.get_all_mapping_infos

/-- One registry operation on a `VirtualMachine`, with the backend status (and
host reservation outcome) it observes. -/
inductive VmOp where
  | allocOp (size : Nat) (reservation_ok : Bool)
  | deallocOp (handle : Nat)
  | mapOp (allocation_handle : Nat) (guest_address : Nat)
      (permission : MemoryPermission) (backend_ret : Nat)
  | unmapOp (mapping_handle : Nat) (backend_ret : Nat)
  | reprotectOp (mapping_handle : Nat) (permission : MemoryPermission) (backend_ret : Nat)

/-- Run one operation, also reporting the allocation handles and the mapping
handles it issued (at most one of the two, and only on success). -/
def VmOp.step (vm : VirtualMachine) : VmOp → VirtualMachine × List Nat × List Nat
  | .allocOp size r =>
      let o := vm.allocate size r
      (o.vm, (match o.res with | .ok h => [h] | .error _ => []), [])
  | .deallocOp h => ((vm.deallocate h).vm, [], [])
  | .mapOp ah ga p ret =>
      let o := vm.map ah ga p ret
      (o.vm, [], (match o.res with | .ok h => [h] | .error _ => []))
  | .unmapOp mh ret => ((vm.unmap mh ret).vm, [], [])
  | .reprotectOp mh p ret => ((vm.reprotect mh p ret).vm, [], [])

/-- Run a sequence of operations from a state, collecting the issued
allocation handles and mapping handles in issue order. -/
def runOps (vm : VirtualMachine) : List VmOp → VirtualMachine × List Nat × List Nat
  | [] => (vm, [], [])
  | op :: rest =>
      let s := VmOp.step vm op
      let r := runOps s.1 rest
      (r.1, s.2.1 ++ r.2.1, s.2.2 ++ r.2.2)

/-- The struct `hv_vcpu_exit_exception_t` of `ffi/types.rs`. -/
structure hv_vcpu_exit_exception_t where
  syndrome : Nat
  virtual_address : Nat
  physical_address : Nat
deriving DecidableEq, Repr

/-- The struct `hv_vcpu_exit_t` of `ffi/types.rs`. -/
structure hv_vcpu_exit_t where
  reason : Nat
  exception : hv_vcpu_exit_exception_t
deriving DecidableEq, Repr

/-- The enum `VirtualCpuExitReason` of `api/mod.rs`. -/
inductive VirtualCpuExitReason where
  | Cancelled
  | Exception (exception : hv_vcpu_exit_exception_t)
  | VTimerActivated
  | Unknown
deriving DecidableEq, Repr

/-- The conversion `impl From<hv_vcpu_exit_t> for VirtualCpuExitReason`: a
total match on the exit reason with `Unknown` as the catch-all arm. -/
def VirtualCpuExitReason.from_exit (value : hv_vcpu_exit_t) : VirtualCpuExitReason :=
  if value.reason = HV_EXIT_REASON_CANCELED then .Cancelled
  else if value.reason = HV_EXIT_REASON_EXCEPTION then .Exception value.exception
  else if value.reason = HV_EXIT_REASON_VTIMER_ACTIVATED then .VTimerActivated
  else if value.reason = HV_EXIT_REASON_UNKNOWN then .Unknown
  else .Unknown

/-- A non-success status converts to the matching error. -/
theorem convert_hv_return_ne (value : Nat) (h : value ≠ HV_SUCCESS) :
    convert_hv_return value = .error (HypervisorError.of_return value) := by
  unfold convert_hv_return
  simp [h]

/-- A handle absent from the allocation list makes the scan fail. -/
theorem find_allocation_aux_eq_error (l : List VirtualMachineAllocation) (h : Nat)
    (hall : ∀ e ∈ l, e.handle ≠ h) :
    ∀ i, find_allocation_aux l h i = .error .InvalidHandle := by
  induction l with
  | nil => intro i; rfl
  | cons a t ih =>
      intro i
      have ha : a.handle ≠ h := hall a (by simp)
      rw [find_allocation_aux, if_neg ha]
      exact ih (fun e he => hall e (by simp [he])) (i + 1)

/-- A successful allocation scan yields the entry at the reported index, whose
handle matches, the index being at least the start offset. -/
theorem find_allocation_aux_ok (l : List VirtualMachineAllocation) (h : Nat) :
    ∀ i j e, find_allocation_aux l h i = .ok (j, e) →
      i ≤ j ∧ j - i < l.length ∧ l.get? (j - i) = some e ∧ e.handle = h := by
  induction l with
  | nil => intro i j e hf; simp [find_allocation_aux] at hf
  | cons a t ih =>
      intro i j e hf
      rw [find_allocation_aux] at hf
      by_cases ha : a.handle = h
      · rw [if_pos ha] at hf
        simp at hf
        obtain ⟨rfl, rfl⟩ := hf
        simp [ha]
      · rw [if_neg ha] at hf
        obtain ⟨h1, h2, h3, h4⟩ := ih (i + 1) j e hf
        refine ⟨by omega, by simp; omega, ?_, h4⟩
        have hji : j - i = (j - (i + 1)) + 1 := by omega
        rw [hji]
        simpa using h3

/-- A handle absent from the mapping list makes the scan fail. -/
theorem find_mapping_aux_eq_error (l : List VirtualMachineMapping) (h : Nat)
    (hall : ∀ e ∈ l, e.mapping_handle ≠ h) :
    ∀ i, find_mapping_aux l h i = .error .InvalidHandle := by
  induction l with
  | nil => intro i; rfl
  | cons a t ih =>
      intro i
      have ha : a.mapping_handle ≠ h := hall a (by simp)
      rw [find_mapping_aux, if_neg ha]
      exact ih (fun e he => hall e (by simp [he])) (i + 1)

/-- A successful mapping scan yields the entry at the reported index, whose
handle matches, the index being at least the start offset. -/
theorem find_mapping_aux_ok (l : List VirtualMachineMapping) (h : Nat) :
    ∀ i j e, find_mapping_aux l h i = .ok (j, e) →
      i ≤ j ∧ j - i < l.length ∧ l.get? (j - i) = some e ∧ e.mapping_handle = h := by
  induction l with
  | nil => intro i j e hf; simp [find_mapping_aux] at hf
  | cons a t ih =>
      intro i j e hf
      rw [find_mapping_aux] at hf
      by_cases ha : a.mapping_handle = h
      · rw [if_pos ha] at hf
        simp at hf
        obtain ⟨rfl, rfl⟩ := hf
        simp [ha]
      · rw [if_neg ha] at hf
        obtain ⟨h1, h2, h3, h4⟩ := ih (i + 1) j e hf
        refine ⟨by omega, by simp; omega, ?_, h4⟩
        have hji : j - i = (j - (i + 1)) + 1 := by omega
        rw [hji]
        simpa using h3

/-- Scanning a list extended at the back by an entry carrying the sought
handle succeeds at the appended position when no earlier entry matches. -/
theorem find_mapping_aux_append_fresh (l : List VirtualMachineMapping) (h : Nat)
    (a : VirtualMachineMapping) (hall : ∀ e ∈ l, e.mapping_handle ≠ h)
    (ha : a.mapping_handle = h) :
    ∀ i, find_mapping_aux (l ++ [a]) h i = .ok (i + l.length, a) := by
  induction l with
  | nil => intro i; simp [find_mapping_aux, ha]
  | cons b t ih =>
      intro i
      have hb : b.mapping_handle ≠ h := hall b (by simp)
      rw [List.cons_append, find_mapping_aux, if_neg hb]
      rw [ih (fun e he => hall e (by simp [he])) (i + 1)]
      simp
      omega

/-- Same fact for the allocation scan. -/
theorem find_allocation_aux_append_fresh (l : List VirtualMachineAllocation) (h : Nat)
    (a : VirtualMachineAllocation) (hall : ∀ e ∈ l, e.handle ≠ h)
    (ha : a.handle = h) :
    ∀ i, find_allocation_aux (l ++ [a]) h i = .ok (i + l.length, a) := by
  induction l with
  | nil => intro i; simp [find_allocation_aux, ha]
  | cons b t ih =>
      intro i
      have hb : b.handle ≠ h := hall b (by simp)
      rw [List.cons_append, find_allocation_aux, if_neg hb]
      rw [ih (fun e he => hall e (by simp [he])) (i + 1)]
      simp
      omega

/-- Scanning a list extended at the back by a matching entry always succeeds,
whatever the earlier entries hold. -/
theorem find_allocation_aux_append_isOk (l : List VirtualMachineAllocation) (h : Nat)
    (a : VirtualMachineAllocation) (ha : a.handle = h) :
    ∀ i, ∃ p, find_allocation_aux (l ++ [a]) h i = .ok p := by
  induction l with
  | nil => intro i; exact ⟨(i, a), by simp [find_allocation_aux, ha]⟩
  | cons b t ih =>
      intro i
      rw [List.cons_append, find_allocation_aux]
      by_cases hb : b.handle = h
      · exact ⟨(i, b), by rw [if_pos hb]⟩
      · rw [if_neg hb]
        exact ih (i + 1)

/-- Replacing the entry a successful scan found by one carrying the same
handle leaves the scan successful at the same index, now yielding the
replacement. -/
theorem find_mapping_aux_set (l : List VirtualMachineMapping) (h : Nat)
    (e' : VirtualMachineMapping) :
    ∀ i j e, find_mapping_aux l h i = .ok (j, e) →
      e'.mapping_handle = e.mapping_handle →
      find_mapping_aux (l.set (j - i) e') h i = .ok (j, e') := by
  induction l with
  | nil => intro i j e hf _; simp [find_mapping_aux] at hf
  | cons a t ih =>
      intro i j e hf he'
      rw [find_mapping_aux] at hf
      by_cases ha : a.mapping_handle = h
      · rw [if_pos ha] at hf
        simp at hf
        obtain ⟨rfl, rfl⟩ := hf
        simp only [Nat.sub_self, List.set_cons_zero]
        rw [find_mapping_aux, if_pos (by rw [he']; exact ha)]
      · rw [if_neg ha] at hf
        have hij : i + 1 ≤ j := (find_mapping_aux_ok t h (i + 1) j e hf).1
        have hji : j - i = (j - (i + 1)) + 1 := by omega
        rw [hji, List.set_cons_succ, find_mapping_aux, if_neg ha]
        exact ih (i + 1) j e hf he'

/-- After erasing the occurrence a `get?` points at, no remaining element
shares its key, provided the keys were pairwise distinct. -/
theorem key_ne_of_mem_eraseIdx {α : Type} (f : α → Nat) (l : List α) :
    ∀ j x, (l.map f).Nodup → l.get? j = some x →
      ∀ y ∈ l.eraseIdx j, f y ≠ f x := by
  induction l with
  | nil => intro j x _ hj; simp at hj
  | cons a t ih =>
      intro j x hnd hj y hy
      have hnd' : (∀ z ∈ t, ¬ f z = f a) ∧ (List.map f t).Nodup := by simpa using hnd
      cases j with
      | zero =>
          simp at hj
          subst hj
          simp only [List.eraseIdx_cons_zero] at hy
          exact hnd'.1 y hy
      | succ j =>
          simp only [List.get?_cons_succ] at hj
          simp only [List.eraseIdx_cons_succ, List.mem_cons] at hy
          rcases hy with rfl | hy
          · have hxm : x ∈ t := List.get?_mem hj
            intro heq
            exact hnd'.1 x hxm heq.symm
          · exact ih j x hnd'.2 hj y hy

/-- Claim C9: the decoding of a backend exit-info record into
`VirtualCpuExitReason` is total and maps reason 0 to `Cancelled`, 1 to
`Exception` carrying the record's exception data, 2 to `VTimerActivated`,
3 to `Unknown`, and every other reason to `Unknown`, never producing an
error by itself. -/
theorem C9_exit_reason_decode (value : hv_vcpu_exit_t) :
    (value.reason = HV_EXIT_REASON_CANCELED →
      VirtualCpuExitReason.from_exit value = .Cancelled) ∧
    (value.reason = HV_EXIT_REASON_EXCEPTION →
      VirtualCpuExitReason.from_exit value = .Exception value.exception) ∧
    (value.reason = HV_EXIT_REASON_VTIMER_ACTIVATED →
      VirtualCpuExitReason.from_exit value = .VTimerActivated) ∧
    (value.reason = HV_EXIT_REASON_UNKNOWN →
      VirtualCpuExitReason.from_exit value = .Unknown) ∧
    (value.reason ≠ HV_EXIT_REASON_CANCELED → value.reason ≠ HV_EXIT_REASON_EXCEPTION →
      value.reason ≠ HV_EXIT_REASON_VTIMER_ACTIVATED → value.reason ≠ HV_EXIT_REASON_UNKNOWN →
      VirtualCpuExitReason.from_exit value = .Unknown) := by
  unfold VirtualCpuExitReason.from_exit
  unfold HV_EXIT_REASON_CANCELED HV_EXIT_REASON_EXCEPTION
  unfold HV_EXIT_REASON_VTIMER_ACTIVATED HV_EXIT_REASON_UNKNOWN
  refine ⟨?_, ?_, ?_, ?_, ?_⟩
  · intro h; simp [h]
  · intro h; simp [h]
  · intro h; simp [h]
  · intro h; simp [h]
  · intro h0 h1 h2 h3; simp [h0, h1, h2, h3]

/-- Witness for C9 at concrete records with each reason value, including an
unrecognized reason 7. -/
theorem C9_exit_reason_decode_witness :
    VirtualCpuExitReason.from_exit ⟨0, ⟨1, 2, 3⟩⟩ = .Cancelled ∧
    VirtualCpuExitReason.from_exit ⟨1, ⟨1, 2, 3⟩⟩ = .Exception ⟨1, 2, 3⟩ ∧
    VirtualCpuExitReason.from_exit ⟨2, ⟨1, 2, 3⟩⟩ = .VTimerActivated ∧
    VirtualCpuExitReason.from_exit ⟨3, ⟨1, 2, 3⟩⟩ = .Unknown ∧
    VirtualCpuExitReason.from_exit ⟨7, ⟨1, 2, 3⟩⟩ = .Unknown :=
  ⟨(C9_exit_reason_decode ⟨0, ⟨1, 2, 3⟩⟩).1 (by decide),
   (C9_exit_reason_decode ⟨1, ⟨1, 2, 3⟩⟩).2.1 (by decide),
   (C9_exit_reason_decode ⟨2, ⟨1, 2, 3⟩⟩).2.2.1 (by decide),
   (C9_exit_reason_decode ⟨3, ⟨1, 2, 3⟩⟩).2.2.2.1 (by decide),
   (C9_exit_reason_decode ⟨7, ⟨1, 2, 3⟩⟩).2.2.2.2 (by decide) (by decide) (by decide) (by decide)⟩

/-- Claim C1: when the backend call made by `map`, `unmap` or `reprotect`
returns a non-success status, the operation returns that backend error and
the machine state is entirely unchanged (in particular the mapping list and
the mapping counter, so no handle is consumed). -/
theorem C1_backend_failure_atomic (vm : VirtualMachine) (ah ga mh : Nat)
    (p : MemoryPermission) (ret : Nat) (hret : ret ≠ HV_SUCCESS) :
    (vm.map ah ga p ret).vm = vm ∧
    (vm.unmap mh ret).vm = vm ∧
    (vm.reprotect mh p ret).vm = vm ∧
    (∀ i alloc, vm.find_allocation_by_handle ah = .ok (i, alloc) →
      (vm.map ah ga p ret).res = .error (HypervisorError.of_return ret)) ∧
    (∀ i m, vm.find_mapping_by_handle mh = .ok (i, m) →
      (vm.unmap mh ret).res = .error (HypervisorError.of_return ret) ∧
      (vm.reprotect mh p ret).res = .error (HypervisorError.of_return ret)) := by
  have hc := convert_hv_return_ne ret hret
  refine ⟨?_, ?_, ?_, ?_, ?_⟩
  · unfold VirtualMachine.map
    cases hf : vm.find_allocation_by_handle ah with
    | error e => simp
    | ok q => obtain ⟨i, a⟩ := q; simp [hc]
  · unfold VirtualMachine.unmap
    cases hf : vm.find_mapping_by_handle mh with
    | error e => simp
    | ok q => obtain ⟨i, m⟩ := q; simp [hc]
  · unfold VirtualMachine.reprotect
    cases hf : vm.find_mapping_by_handle mh with
    | error e => simp
    | ok q => obtain ⟨i, m⟩ := q; simp [hc]
  · intro i alloc hf
    unfold VirtualMachine.map
    rw [hf]
    simp [hc]
  · intro i m hf
    constructor
    · unfold VirtualMachine.unmap
      rw [hf]
      simp [hc]
    · unfold VirtualMachine.reprotect
      rw [hf]
      simp [hc]

/-- A one-byte allocation record carrying handle 1. -/
def vmOneAllocRec : VirtualMachineAllocation :=
  { data := [0], base_is_null := false, handle := 1 }

/-- A mapping record exposing allocation 1 at guest address 0x20000 under
mapping handle 1 with read permission. -/
def vmOneMappingRec : VirtualMachineMapping :=
  { allocation_handle := 1, mapping_handle := 1, address := 0x20000,
    size := 1, permission := MemoryPermission.READ }

/-- A machine state holding one allocation of handle 1 backed by a one-byte
buffer, mapped once at guest address 0x20000 under mapping handle 1. -/
def vmOneMapping : VirtualMachine :=
  { allocation_counter := 1
    mapping_counter := 1
    allocation_list := [vmOneAllocRec]
    mapping_list := [vmOneMappingRec] }

/-- A machine state holding one unmapped allocation of handle 1. -/
def vmOneAlloc : VirtualMachine :=
  { allocation_counter := 1
    mapping_counter := 0
    allocation_list := [vmOneAllocRec]
    mapping_list := [] }

/-- Witness for C1: a generic backend error against a state holding one
mapping leaves the state unchanged and surfaces as `HypervisorError.Error`. -/
theorem C1_backend_failure_atomic_witness :
    HV_ERROR ≠ HV_SUCCESS ∧
    ((vmOneMapping.map 1 0x30000 MemoryPermission.READ HV_ERROR).vm = vmOneMapping ∧
     (vmOneMapping.unmap 1 HV_ERROR).vm = vmOneMapping ∧
     (vmOneMapping.reprotect 1 MemoryPermission.READ HV_ERROR).vm = vmOneMapping ∧
     (∀ i alloc, vmOneMapping.find_allocation_by_handle 1 = .ok (i, alloc) →
       (vmOneMapping.map 1 0x30000 MemoryPermission.READ HV_ERROR).res =
         .error (HypervisorError.of_return HV_ERROR)) ∧
     (∀ i m, vmOneMapping.find_mapping_by_handle 1 = .ok (i, m) →
       (vmOneMapping.unmap 1 HV_ERROR).res = .error (HypervisorError.of_return HV_ERROR) ∧
       (vmOneMapping.reprotect 1 MemoryPermission.READ HV_ERROR).res =
         .error (HypervisorError.of_return HV_ERROR))) :=
  ⟨by decide,
   C1_backend_failure_atomic vmOneMapping 1 0x30000 1 MemoryPermission.READ HV_ERROR (by decide)⟩

/-- The updated state `allocate` produces: counter advanced, record pushed at
the back carrying the fresh handle. -/
theorem allocate_vm_eq (vm : VirtualMachine) (size : Nat) (r : Bool) :
    (vm.allocate size r).vm =
      { vm with
          allocation_counter := Counter.get_next_value vm.allocation_counter
          allocation_list := vm.allocation_list ++
            [{ VirtualMachineAllocation.new size r with
                 handle := Counter.get_next_value vm.allocation_counter }] } := rfl

/-- The result `allocate` returns: always `Ok` with the fresh handle. -/
theorem allocate_res_eq (vm : VirtualMachine) (size : Nat) (r : Bool) :
    (vm.allocate size r).res = .ok (Counter.get_next_value vm.allocation_counter) := rfl

/-- Claim C10: the `NoResources` fallback branch of `allocate_from` is
unreachable: right after a successful `allocate`, `get_allocation_slice_mut`
on the freshly issued handle always succeeds, so `allocate_from` always
returns `Ok` with the fresh handle; when no earlier record carries the fresh
handle, the exact-match scan finds precisely the record just pushed. -/
theorem C10_allocate_from_fallback_unreachable (vm : VirtualMachine) (source : List Nat)
    (size : Nat) (r : Bool) :
    (∃ sl, ((vm.allocate size r).vm).get_allocation_slice_mut
        (Counter.get_next_value vm.allocation_counter) = .ok sl) ∧
    (vm.allocate_from source r).res = .ok (Counter.get_next_value vm.allocation_counter) ∧
    ((∀ a ∈ vm.allocation_list, a.handle ≠ Counter.get_next_value vm.allocation_counter) →
      ((vm.allocate size r).vm).find_allocation_by_handle
          (Counter.get_next_value vm.allocation_counter) =
        .ok (vm.allocation_list.length,
             { VirtualMachineAllocation.new size r with
                 handle := Counter.get_next_value vm.allocation_counter })) := by
  refine ⟨?_, ?_, ?_⟩
  · obtain ⟨p, hp⟩ := find_allocation_aux_append_isOk vm.allocation_list
      (Counter.get_next_value vm.allocation_counter)
      { VirtualMachineAllocation.new size r with
          handle := Counter.get_next_value vm.allocation_counter } rfl 0
    refine ⟨p.2.data, ?_⟩
    unfold VirtualMachine.get_allocation_slice_mut VirtualMachine.find_allocation_by_handle
    rw [allocate_vm_eq]
    simp only
    rw [hp]
    rfl
  · obtain ⟨p, hp⟩ := find_allocation_aux_append_isOk vm.allocation_list
      (Counter.get_next_value vm.allocation_counter)
      { VirtualMachineAllocation.new source.length r with
          handle := Counter.get_next_value vm.allocation_counter } rfl 0
    obtain ⟨idx, alloc⟩ := p
    unfold VirtualMachine.allocate_from
    simp only [allocate_res_eq, allocate_vm_eq]
    unfold VirtualMachine.find_allocation_by_handle
    simp only
    rw [hp]
  · intro hall
    unfold VirtualMachine.find_allocation_by_handle
    rw [allocate_vm_eq]
    simp only
    rw [find_allocation_aux_append_fresh vm.allocation_list
      (Counter.get_next_value vm.allocation_counter)
      { VirtualMachineAllocation.new size r with
          handle := Counter.get_next_value vm.allocation_counter } hall rfl 0]
    simp

/-- Witness for C10 on a fresh machine. -/
theorem C10_allocate_from_fallback_unreachable_witness :
    (∃ sl, ((VirtualMachine.fresh.allocate 5 true).vm).get_allocation_slice_mut
        (Counter.get_next_value VirtualMachine.fresh.allocation_counter) = .ok sl) ∧
    (VirtualMachine.fresh.allocate_from [1, 2] true).res =
      .ok (Counter.get_next_value VirtualMachine.fresh.allocation_counter) ∧
    ((VirtualMachine.fresh.allocate 5 true).vm).find_allocation_by_handle
        (Counter.get_next_value VirtualMachine.fresh.allocation_counter) =
      .ok (VirtualMachine.fresh.allocation_list.length,
           { VirtualMachineAllocation.new 5 true with
               handle := Counter.get_next_value VirtualMachine.fresh.allocation_counter }) :=
  ⟨(C10_allocate_from_fallback_unreachable VirtualMachine.fresh [1, 2] 5 true).1,
   (C10_allocate_from_fallback_unreachable VirtualMachine.fresh [1, 2] 5 true).2.1,
   (C10_allocate_from_fallback_unreachable VirtualMachine.fresh [1, 2] 5 true).2.2
     (by simp [VirtualMachine.fresh])⟩

/-- Claim C4, behavior of the code at the failing input: when the host
reservation fails (`alloc_zeroed` returns null), `allocate` does not report
`NoResources`; it still returns `Ok` with the fresh handle 1, makes no
backend call, and stores a null-backed record in the registry. -/
theorem C4_allocate_no_reservation_check :
    (VirtualMachine.fresh.allocate 0x1000 false).res = .ok 1 ∧
    (VirtualMachine.fresh.allocate 0x1000 false).calls = [] ∧
    ((VirtualMachine.fresh.allocate 0x1000 false).vm.allocation_list.map
      (fun a => a.base_is_null)) = [true] := by
  refine ⟨rfl, rfl, rfl⟩

/-- Allocation-side analog of `find_mapping_aux_set`: replacing the found
entry by one with the same handle keeps the scan result at the same index. -/
theorem find_allocation_aux_set (l : List VirtualMachineAllocation) (h : Nat)
    (e' : VirtualMachineAllocation) :
    ∀ i j e, find_allocation_aux l h i = .ok (j, e) →
      e'.handle = e.handle →
      find_allocation_aux (l.set (j - i) e') h i = .ok (j, e') := by
  induction l with
  | nil => intro i j e hf _; simp [find_allocation_aux] at hf
  | cons a t ih =>
      intro i j e hf he'
      rw [find_allocation_aux] at hf
      by_cases ha : a.handle = h
      · rw [if_pos ha] at hf
        simp at hf
        obtain ⟨rfl, rfl⟩ := hf
        simp only [Nat.sub_self, List.set_cons_zero]
        rw [find_allocation_aux, if_pos (by rw [he']; exact ha)]
      · rw [if_neg ha] at hf
        have hij : i + 1 ≤ j := (find_allocation_aux_ok t h (i + 1) j e hf).1
        have hji : j - i = (j - (i + 1)) + 1 := by omega
        rw [hji, List.set_cons_succ, find_allocation_aux, if_neg ha]
        exact ih (i + 1) j e hf he'

/-- Dropping from a replicated list leaves a replicated list. -/
theorem drop_replicate {α : Type} (a : α) : ∀ n m : Nat,
    List.drop n (List.replicate m a) = List.replicate (m - n) a := by
  intro n
  induction n with
  | zero => intro m; simp
  | succ n ih =>
      intro m
      cases m with
      | zero => simp
      | succ m =>
          rw [List.replicate_succ, List.drop_succ_cons, ih m]
          congr 1
          omega

/-- The padded size is at least the requested size. -/
theorem le_pad_to_align (size : Nat) : size ≤ pad_to_align size := by
  unfold pad_to_align PAGE_SIZE
  have h1 := Nat.div_add_mod (size + 0x10000 - 1) 0x10000
  have h2 := Nat.mod_lt (size + 0x10000 - 1) (y := 0x10000) (by omega)
  omega

/-- Claim C5: after a successful `allocate_from bytes` returning the fresh
handle, `get_allocation_slice` on that handle yields a region of length
`bytes.length` rounded up to the page size whose first `bytes.length` bytes
are exactly `bytes` and whose tail bytes are all zero. -/
theorem C5_allocate_from_slice (vm : VirtualMachine) (source : List Nat) (r : Bool)
    (hfresh : ∀ a ∈ vm.allocation_list,
      a.handle ≠ Counter.get_next_value vm.allocation_counter) :
    (vm.allocate_from source r).res = .ok (Counter.get_next_value vm.allocation_counter) ∧
    ∃ sl, (vm.allocate_from source r).vm.get_allocation_slice
        (Counter.get_next_value vm.allocation_counter) = .ok sl ∧
      sl.length = pad_to_align source.length ∧
      sl.take source.length = source ∧
      sl.drop source.length =
        List.replicate (pad_to_align source.length - source.length) 0 := by
  have hpad := le_pad_to_align source.length
  have hfind := find_allocation_aux_append_fresh vm.allocation_list
    (Counter.get_next_value vm.allocation_counter)
    { VirtualMachineAllocation.new source.length r with
        handle := Counter.get_next_value vm.allocation_counter } hfresh rfl 0
  rw [Nat.zero_add] at hfind
  have hres : vm.allocate_from source r =
      { res := .ok (Counter.get_next_value vm.allocation_counter)
        vm := { (vm.allocate source.length r).vm with
                  allocation_list :=
                    ((vm.allocate source.length r).vm.allocation_list).set
                      vm.allocation_list.length
                      { VirtualMachineAllocation.new source.length r with
                          handle := Counter.get_next_value vm.allocation_counter
                          data := source ++
                            (List.replicate (pad_to_align source.length) 0).drop
                              source.length } }
        calls := [] } := by
    unfold VirtualMachine.allocate_from
    simp only [allocate_res_eq, allocate_vm_eq]
    unfold VirtualMachine.find_allocation_by_handle
    simp only
    rw [hfind]
    rfl
  refine ⟨by rw [hres], ?_⟩
  have hset := find_allocation_aux_set
    (vm.allocation_list ++
      [{ VirtualMachineAllocation.new source.length r with
           handle := Counter.get_next_value vm.allocation_counter }])
    (Counter.get_next_value vm.allocation_counter)
    { VirtualMachineAllocation.new source.length r with
        handle := Counter.get_next_value vm.allocation_counter
        data := source ++
          (List.replicate (pad_to_align source.length) 0).drop source.length }
    0 vm.allocation_list.length
    { VirtualMachineAllocation.new source.length r with
        handle := Counter.get_next_value vm.allocation_counter }
    hfind rfl
  rw [Nat.sub_zero] at hset
  refine ⟨source ++ (List.replicate (pad_to_align source.length) 0).drop source.length,
    ?_, ?_, ?_, ?_⟩
  · rw [hres]
    unfold VirtualMachine.get_allocation_slice VirtualMachine.find_allocation_by_handle
    simp only [allocate_vm_eq]
    rw [hset]
    rfl
  · rw [drop_replicate]
    simp
    omega
  · exact List.take_left source _
  · rw [List.drop_left, drop_replicate]

/-- Witness for C5 on a fresh machine and the three-byte source [7, 8, 9]. -/
theorem C5_allocate_from_slice_witness :
    (∀ a ∈ VirtualMachine.fresh.allocation_list,
      a.handle ≠ Counter.get_next_value VirtualMachine.fresh.allocation_counter) ∧
    ((VirtualMachine.fresh.allocate_from [7, 8, 9] true).res =
      .ok (Counter.get_next_value VirtualMachine.fresh.allocation_counter) ∧
     ∃ sl, (VirtualMachine.fresh.allocate_from [7, 8, 9] true).vm.get_allocation_slice
        (Counter.get_next_value VirtualMachine.fresh.allocation_counter) = .ok sl ∧
      sl.length = pad_to_align (List.length [7, 8, 9]) ∧
      sl.take (List.length [7, 8, 9]) = [7, 8, 9] ∧
      sl.drop (List.length [7, 8, 9]) =
        List.replicate (pad_to_align (List.length [7, 8, 9]) - List.length [7, 8, 9]) 0) :=
  ⟨by simp [VirtualMachine.fresh],
   C5_allocate_from_slice VirtualMachine.fresh [7, 8, 9] true
     (by simp [VirtualMachine.fresh])⟩

/-- Claim C7: a successful `reprotect(h, P)` updates exactly the found
mapping record's permission: `get_mapping_info h` then returns the old record
with permission `P`, the record at the found index is that updated record,
every other registry entry is unchanged, and the allocation registry and both
counters are untouched. -/
theorem C7_reprotect_updates_permission_only (vm : VirtualMachine) (mh : Nat)
    (P : MemoryPermission) (i : Nat) (m : VirtualMachineMapping)
    (hfind : vm.find_mapping_by_handle mh = .ok (i, m)) :
    (vm.reprotect mh P HV_SUCCESS).res = .ok () ∧
    (vm.reprotect mh P HV_SUCCESS).vm.get_mapping_info mh = .ok { m with permission := P } ∧
    (vm.reprotect mh P HV_SUCCESS).vm.allocation_counter = vm.allocation_counter ∧
    (vm.reprotect mh P HV_SUCCESS).vm.mapping_counter = vm.mapping_counter ∧
    (vm.reprotect mh P HV_SUCCESS).vm.allocation_list = vm.allocation_list ∧
    (vm.reprotect mh P HV_SUCCESS).vm.mapping_list.get? i = some { m with permission := P } ∧
    (∀ j, j ≠ i → (vm.reprotect mh P HV_SUCCESS).vm.mapping_list.get? j =
      vm.mapping_list.get? j) := by
  have hrep : vm.reprotect mh P HV_SUCCESS =
      { res := .ok ()
        vm := { vm with mapping_list := vm.mapping_list.set i { m with permission := P } }
        calls := [BackendCall.protectCall m.address m.size (hv_memory_flags_of P)] } := by
    unfold VirtualMachine.reprotect
    rw [hfind]
    rfl
  have hfind0 : find_mapping_aux vm.mapping_list mh 0 = .ok (i, m) := hfind
  have hok := find_mapping_aux_ok vm.mapping_list mh 0 i m hfind0
  have hget : vm.mapping_list.get? i = some m := by
    have := hok.2.2.1
    rwa [Nat.sub_zero] at this
  have hset := find_mapping_aux_set vm.mapping_list mh { m with permission := P } 0 i m hfind0 rfl
  rw [Nat.sub_zero] at hset
  refine ⟨by rw [hrep], ?_, by rw [hrep], by rw [hrep], by rw [hrep], ?_, ?_⟩
  · rw [hrep]
    unfold VirtualMachine.get_mapping_info VirtualMachine.find_mapping_by_handle
    simp only
    rw [hset]
    rfl
  · rw [hrep]
    simp only
    rw [List.get?_set_eq, hget]
    rfl
  · intro j hj
    rw [hrep]
    simp only
    exact List.get?_set_ne _ vm.mapping_list (fun he => hj he.symm)

/-- Witness for C7: reprotecting the single mapping of `vmOneMapping` to
write permission. -/
theorem C7_reprotect_updates_permission_only_witness :
    vmOneMapping.find_mapping_by_handle 1 = .ok (0, vmOneMappingRec) ∧
    ((vmOneMapping.reprotect 1 MemoryPermission.WRITE HV_SUCCESS).res = .ok () ∧
     (vmOneMapping.reprotect 1 MemoryPermission.WRITE HV_SUCCESS).vm.get_mapping_info 1 =
       .ok { vmOneMappingRec with permission := MemoryPermission.WRITE } ∧
     (vmOneMapping.reprotect 1 MemoryPermission.WRITE HV_SUCCESS).vm.allocation_counter =
       vmOneMapping.allocation_counter ∧
     (vmOneMapping.reprotect 1 MemoryPermission.WRITE HV_SUCCESS).vm.mapping_counter =
       vmOneMapping.mapping_counter ∧
     (vmOneMapping.reprotect 1 MemoryPermission.WRITE HV_SUCCESS).vm.allocation_list =
       vmOneMapping.allocation_list ∧
     (vmOneMapping.reprotect 1 MemoryPermission.WRITE HV_SUCCESS).vm.mapping_list.get? 0 =
       some { vmOneMappingRec with permission := MemoryPermission.WRITE } ∧
     (∀ j, j ≠ 0 → (vmOneMapping.reprotect 1 MemoryPermission.WRITE HV_SUCCESS).vm.mapping_list.get? j =
       vmOneMapping.mapping_list.get? j)) :=
  ⟨by rfl,
   C7_reprotect_updates_permission_only vmOneMapping 1 MemoryPermission.WRITE 0
     vmOneMappingRec (by rfl)⟩

/-- Step 1 of the C6 scenario: allocate 0x1000 bytes on a fresh machine. -/
def c6Step1 : OpResult Nat := VirtualMachine.fresh.allocate 0x1000 true

/-- Step 2 of the C6 scenario: map allocation 1 at 0x20000 with Execute. -/
def c6Step2 : OpResult Nat := c6Step1.vm.map 1 0x20000 MemoryPermission.EXECUTE HV_SUCCESS

/-- Step 3 of the C6 scenario: unmap mapping 1. -/
def c6Step3 : OpResult Unit := c6Step2.vm.unmap 1 HV_SUCCESS

/-- Claim C6: a successful `map` records a mapping whose size is exactly the
size of the allocation it exposes (the requested size rounded up to the page
size), and `get_mapping_info` on the returned handle yields that address,
size and permission; in the concrete scenario, allocating 0x1000 bytes and
mapping at 0x20000 with Execute yields the record
{address 0x20000, size 0x10000 = pad_to_align 0x1000, permission Execute},
and after `unmap` the same `get_mapping_info` fails with `InvalidHandle`. -/
theorem C6_map_size_and_info (vm : VirtualMachine) (ah ga : Nat)
    (p : MemoryPermission) (i : Nat) (alloc : VirtualMachineAllocation)
    (hfind : vm.find_allocation_by_handle ah = .ok (i, alloc))
    (hfresh : ∀ m ∈ vm.mapping_list,
      m.mapping_handle ≠ Counter.get_next_value vm.mapping_counter) :
    ((vm.map ah ga p HV_SUCCESS).res = .ok (Counter.get_next_value vm.mapping_counter) ∧
     (vm.map ah ga p HV_SUCCESS).vm.get_mapping_info
         (Counter.get_next_value vm.mapping_counter) =
       .ok { allocation_handle := ah
             mapping_handle := Counter.get_next_value vm.mapping_counter
             address := ga
             size := alloc.data.length
             permission := p }) ∧
    (c6Step1.res = .ok 1 ∧
     c6Step2.res = .ok 1 ∧
     pad_to_align 0x1000 = 0x10000 ∧
     c6Step2.vm.get_mapping_info 1 =
       .ok { allocation_handle := 1, mapping_handle := 1, address := 0x20000,
             size := 0x10000, permission := MemoryPermission.EXECUTE } ∧
     c6Step3.res = .ok () ∧
     c6Step3.vm.get_mapping_info 1 = .error .InvalidHandle) := by
  constructor
  · have hmap : vm.map ah ga p HV_SUCCESS =
        { res := .ok (Counter.get_next_value vm.mapping_counter)
          vm := { vm with
                    mapping_counter := Counter.get_next_value vm.mapping_counter
                    mapping_list := vm.mapping_list ++
                      [{ allocation_handle := ah
                         mapping_handle := Counter.get_next_value vm.mapping_counter
                         address := ga
                         size := alloc.data.length
                         permission := p }] }
          calls := [BackendCall.mapCall ga alloc.data.length (hv_memory_flags_of p)] } := by
      unfold VirtualMachine.map
      rw [hfind]
      rfl
    refine ⟨by rw [hmap], ?_⟩
    rw [hmap]
    unfold VirtualMachine.get_mapping_info VirtualMachine.find_mapping_by_handle
    simp only
    rw [find_mapping_aux_append_fresh vm.mapping_list
      (Counter.get_next_value vm.mapping_counter) _ hfresh rfl 0]
    rfl
  · have hpad : pad_to_align 0x1000 = 0x10000 := by
      unfold pad_to_align PAGE_SIZE
      rfl
    have hinfo : c6Step2.vm.get_mapping_info 1 =
        .ok { allocation_handle := 1, mapping_handle := 1, address := 0x20000,
              size := (List.replicate (pad_to_align 0x1000) 0).length,
              permission := MemoryPermission.EXECUTE } := rfl
    have hlen : (List.replicate (pad_to_align 0x1000) 0).length = 0x10000 := by
      rw [List.length_replicate, hpad]
    refine ⟨rfl, rfl, hpad, ?_, rfl, rfl⟩
    rw [hinfo, hlen]

/-- Witness for C6: mapping the single unmapped allocation of `vmOneAlloc`. -/
theorem C6_map_size_and_info_witness :
    vmOneAlloc.find_allocation_by_handle 1 = .ok (0, vmOneAllocRec) ∧
    (∀ m ∈ vmOneAlloc.mapping_list,
      m.mapping_handle ≠ Counter.get_next_value vmOneAlloc.mapping_counter) ∧
    (((vmOneAlloc.map 1 0x20000 MemoryPermission.READ HV_SUCCESS).res =
        .ok (Counter.get_next_value vmOneAlloc.mapping_counter) ∧
      (vmOneAlloc.map 1 0x20000 MemoryPermission.READ HV_SUCCESS).vm.get_mapping_info
          (Counter.get_next_value vmOneAlloc.mapping_counter) =
        .ok { allocation_handle := 1
              mapping_handle := Counter.get_next_value vmOneAlloc.mapping_counter
              address := 0x20000
              size := vmOneAllocRec.data.length
              permission := MemoryPermission.READ }) ∧
     (c6Step1.res = .ok 1 ∧
      c6Step2.res = .ok 1 ∧
      pad_to_align 0x1000 = 0x10000 ∧
      c6Step2.vm.get_mapping_info 1 =
        .ok { allocation_handle := 1, mapping_handle := 1, address := 0x20000,
              size := 0x10000, permission := MemoryPermission.EXECUTE } ∧
      c6Step3.res = .ok () ∧
      c6Step3.vm.get_mapping_info 1 = .error .InvalidHandle)) :=
  ⟨by rfl, by simp [vmOneAlloc],
   C6_map_size_and_info vmOneAlloc 1 0x20000 MemoryPermission.READ 0 vmOneAllocRec
     (by rfl) (by simp [vmOneAlloc])⟩

/-- Claim C2: `deallocate h` fails with `InvalidHandle` when `h` is not in
the allocation registry; fails with `AllocationStillMapped`, leaving the
state unchanged, when a mapping still references `h`; otherwise succeeds and
removes the record, after which a second `deallocate h` fails with
`InvalidHandle`; and after unmapping the last mapping referencing `h`,
`deallocate h` succeeds. -/
theorem C2_deallocate_spec (vm : VirtualMachine) (h : Nat) :
    ((∀ a ∈ vm.allocation_list, a.handle ≠ h) →
      (vm.deallocate h).res = .error .InvalidHandle ∧ (vm.deallocate h).vm = vm) ∧
    (∀ i a, vm.find_allocation_by_handle h = .ok (i, a) →
      vm.is_allocation_mapped h = true →
      (vm.deallocate h).res = .error .AllocationStillMapped ∧ (vm.deallocate h).vm = vm) ∧
    (∀ i a, (vm.allocation_list.map (fun e => e.handle)).Nodup →
      vm.find_allocation_by_handle h = .ok (i, a) →
      vm.is_allocation_mapped h = false →
      (vm.deallocate h).res = .ok () ∧
      (vm.deallocate h).vm.allocation_list = vm.allocation_list.eraseIdx i ∧
      ((vm.deallocate h).vm.deallocate h).res = .error .InvalidHandle) ∧
    (∀ i a k m mh, (vm.mapping_list.map (fun e => e.mapping_handle)).Nodup →
      vm.find_allocation_by_handle h = .ok (i, a) →
      vm.find_mapping_by_handle mh = .ok (k, m) →
      (∀ m2 ∈ vm.mapping_list, m2.allocation_handle = h → m2.mapping_handle = mh) →
      (((vm.unmap mh HV_SUCCESS).vm).deallocate h).res = .ok ()) := by
  refine ⟨?_, ?_, ?_, ?_⟩
  · intro hall
    have hf : vm.find_allocation_by_handle h = .error .InvalidHandle :=
      find_allocation_aux_eq_error vm.allocation_list h hall 0
    unfold VirtualMachine.deallocate
    rw [hf]
    exact ⟨rfl, rfl⟩
  · intro i a hfind hmapped
    unfold VirtualMachine.deallocate
    rw [hfind]
    simp [hmapped]
  · intro i a hnd hfind hmapped
    have hok := find_allocation_aux_ok vm.allocation_list h 0 i a hfind
    have hget : vm.allocation_list.get? i = some a := by
      have := hok.2.2.1
      rwa [Nat.sub_zero] at this
    have hah : a.handle = h := hok.2.2.2
    have hde : vm.deallocate h =
        { res := .ok ()
          vm := { vm with allocation_list := vm.allocation_list.eraseIdx i }
          calls := [] } := by
      unfold VirtualMachine.deallocate
      rw [hfind]
      simp [hmapped]
    refine ⟨by rw [hde], by rw [hde], ?_⟩
    have hall2 : ∀ y ∈ vm.allocation_list.eraseIdx i, y.handle ≠ h := by
      intro y hy
      rw [← hah]
      exact key_ne_of_mem_eraseIdx (fun e => e.handle) vm.allocation_list i a hnd hget y hy
    have hf2 : find_allocation_aux (vm.allocation_list.eraseIdx i) h 0 = .error .InvalidHandle :=
      find_allocation_aux_eq_error _ h hall2 0
    rw [hde]
    unfold VirtualMachine.deallocate VirtualMachine.find_allocation_by_handle
    simp only
    rw [hf2]
  · intro i a k m mh hnd hfa hfm href
    have hmok := find_mapping_aux_ok vm.mapping_list mh 0 k m hfm
    have hmget : vm.mapping_list.get? k = some m := by
      have := hmok.2.2.1
      rwa [Nat.sub_zero] at this
    have hmh : m.mapping_handle = mh := hmok.2.2.2
    have hunm : vm.unmap mh HV_SUCCESS =
        { res := .ok ()
          vm := { vm with mapping_list := vm.mapping_list.eraseIdx k }
          calls := [BackendCall.unmapCall m.address m.size] } := by
      unfold VirtualMachine.unmap
      rw [hfm]
      rfl
    rw [hunm]
    have hnotmapped : ∀ m2 ∈ vm.mapping_list.eraseIdx k, m2.allocation_handle ≠ h := by
      intro m2 hm2 href2
      have hm2mem : m2 ∈ vm.mapping_list := List.mem_of_mem_eraseIdx hm2
      have : m2.mapping_handle = mh := href m2 hm2mem href2
      have hne := key_ne_of_mem_eraseIdx (fun e => e.mapping_handle)
        vm.mapping_list k m hnd hmget m2 hm2
      exact hne (show m2.mapping_handle = m.mapping_handle by rw [this, hmh])
    have hmapfalse : VirtualMachine.is_allocation_mapped
        { vm with mapping_list := vm.mapping_list.eraseIdx k } h = false := by
      unfold VirtualMachine.is_allocation_mapped
      simp only [List.any_eq_false]
      intro m2 hm2
      simpa using hnotmapped m2 hm2
    unfold VirtualMachine.deallocate
    have hfa2 : VirtualMachine.find_allocation_by_handle
        { vm with mapping_list := vm.mapping_list.eraseIdx k } h = .ok (i, a) := hfa
    rw [hfa2]
    simp [hmapfalse]

/-- Witness for C2: each case exercised on small concrete states. -/
theorem C2_deallocate_spec_witness :
    ((vmOneAlloc.deallocate 5).res = .error .InvalidHandle ∧ (vmOneAlloc.deallocate 5).vm = vmOneAlloc) ∧
    ((vmOneMapping.deallocate 1).res = .error .AllocationStillMapped ∧
      (vmOneMapping.deallocate 1).vm = vmOneMapping) ∧
    ((vmOneAlloc.deallocate 1).res = .ok () ∧
      (vmOneAlloc.deallocate 1).vm.allocation_list = vmOneAlloc.allocation_list.eraseIdx 0 ∧
      ((vmOneAlloc.deallocate 1).vm.deallocate 1).res = .error .InvalidHandle) ∧
    (((vmOneMapping.unmap 1 HV_SUCCESS).vm).deallocate 1).res = .ok () :=
  ⟨(C2_deallocate_spec vmOneAlloc 5).1 (by decide),
   (C2_deallocate_spec vmOneMapping 1).2.1 0 vmOneAllocRec (by rfl) (by rfl),
   (C2_deallocate_spec vmOneAlloc 1).2.2.1 0 vmOneAllocRec (by decide) (by rfl) (by rfl),
   (C2_deallocate_spec vmOneMapping 1).2.2.2 0 vmOneAllocRec 0 vmOneMappingRec 1
     (by decide) (by rfl) (by rfl) (by decide)⟩

/-- When every unmap status and the destroy status are success, the teardown
loop unmaps everything in snapshot order and then destroys: it returns the
machine with an empty mapping registry and a trace of one unmap call per
snapshot entry followed by the destroy call. -/
theorem drop_loop_success (oracle : TeardownOracle) :
    ∀ (snapshot : List VirtualMachineMapping) (vm : VirtualMachine),
      vm.mapping_list = snapshot →
      (∀ m ∈ snapshot, oracle.unmap_ret m.address m.size = HV_SUCCESS) →
      oracle.destroy_ret = HV_SUCCESS →
      drop_loop oracle vm snapshot =
        (some { vm with mapping_list := [] },
         snapshot.map (fun m => BackendCall.unmapCall m.address m.size) ++
           [BackendCall.destroyCall]) := by
  intro snapshot
  induction snapshot with
  | nil =>
      intro vm hsnap _ hd
      obtain ⟨ac, mc, al, ml⟩ := vm
      simp only at hsnap
      subst hsnap
      simp [drop_loop, convert_hv_return, hd]
  | cons m rest ih =>
      intro vm hsnap hall hd
      have hfind : vm.find_mapping_by_handle m.mapping_handle = .ok (0, m) := by
        unfold VirtualMachine.find_mapping_by_handle
        rw [hsnap, find_mapping_aux, if_pos rfl]
      have hret : oracle.unmap_ret m.address m.size = HV_SUCCESS := hall m (by simp)
      have hunm : vm.unmap m.mapping_handle (oracle.unmap_ret m.address m.size) =
          { res := .ok ()
            vm := { vm with mapping_list := rest }
            calls := [BackendCall.unmapCall m.address m.size] } := by
        unfold VirtualMachine.unmap
        rw [hfind, hret]
        have herase : vm.mapping_list.eraseIdx 0 = rest := by
          rw [hsnap]
          rfl
        simp [convert_hv_return, herase]
      rw [drop_loop]
      simp only [hfind, hunm]
      rw [ih { vm with mapping_list := rest } rfl (fun x hx => hall x (by simp [hx])) hd]
      simp

/-- The teardown loop returns a state (rather than panicking) only when every
unmap status of the snapshot and the destroy status were success. -/
theorem drop_loop_some (oracle : TeardownOracle) :
    ∀ (snapshot : List VirtualMachineMapping) (vm : VirtualMachine),
      vm.mapping_list = snapshot →
      (drop_loop oracle vm snapshot).1.isSome = true →
      oracle.destroy_ret = HV_SUCCESS ∧
        ∀ m ∈ snapshot, oracle.unmap_ret m.address m.size = HV_SUCCESS := by
  intro snapshot
  induction snapshot with
  | nil =>
      intro vm _ hsome
      rw [drop_loop] at hsome
      by_cases hd : oracle.destroy_ret = HV_SUCCESS
      · exact ⟨hd, by simp⟩
      · rw [convert_hv_return_ne oracle.destroy_ret hd] at hsome
        simp at hsome
  | cons m rest ih =>
      intro vm hsnap hsome
      have hfind : vm.find_mapping_by_handle m.mapping_handle = .ok (0, m) := by
        unfold VirtualMachine.find_mapping_by_handle
        rw [hsnap, find_mapping_aux, if_pos rfl]
      rw [drop_loop] at hsome
      simp only [hfind] at hsome
      by_cases hret : oracle.unmap_ret m.address m.size = HV_SUCCESS
      · have hunm : vm.unmap m.mapping_handle (oracle.unmap_ret m.address m.size) =
            { res := .ok ()
              vm := { vm with mapping_list := rest }
              calls := [BackendCall.unmapCall m.address m.size] } := by
          unfold VirtualMachine.unmap
          rw [hfind, hret]
          have herase : vm.mapping_list.eraseIdx 0 = rest := by
            rw [hsnap]
            rfl
          simp [convert_hv_return, herase]
        rw [hunm] at hsome
        simp only at hsome
        obtain ⟨hd, hrest⟩ := ih { vm with mapping_list := rest } rfl hsome
        refine ⟨hd, ?_⟩
        intro x hx
        rcases List.mem_cons.mp hx with rfl | hx2
        · exact hret
        · exact hrest x hx2
      · have hunm : (vm.unmap m.mapping_handle (oracle.unmap_ret m.address m.size)).res =
            .error (HypervisorError.of_return (oracle.unmap_ret m.address m.size)) := by
          unfold VirtualMachine.unmap
          rw [hfind, convert_hv_return_ne _ hret]
        rw [hunm] at hsome
        simp at hsome

/-- Claim C8: on destruction every still-active mapping is unmapped through
the backend before the backend VM-destroy call (the trace is one unmap call
per mapping, in snapshot order, followed by the destroy call, and the final
registry is empty), and any backend failure during this teardown escalates
as a panic: the destructor completes normally only if the destroy status and
every unmap status were success. -/
theorem C8_drop_unmaps_all_then_destroys (vm : VirtualMachine) (oracle : TeardownOracle) :
    ((∀ m ∈ vm.mapping_list, oracle.unmap_ret m.address m.size = HV_SUCCESS) →
      oracle.destroy_ret = HV_SUCCESS →
      vm.drop oracle =
        (some { vm with mapping_list := [] },
         vm.mapping_list.map (fun m => BackendCall.unmapCall m.address m.size) ++
           [BackendCall.destroyCall])) ∧
    ((vm.drop oracle).1.isSome = true →
      oracle.destroy_ret = HV_SUCCESS ∧
        ∀ m ∈ vm.mapping_list, oracle.unmap_ret m.address m.size = HV_SUCCESS) := by
  constructor
  · intro hall hd
    exact drop_loop_success oracle vm.mapping_list vm rfl hall hd
  · intro hsome
    exact drop_loop_some oracle vm.mapping_list vm rfl hsome

/-- A teardown oracle whose every status is success. -/
def allSuccessOracle : TeardownOracle :=
  { unmap_ret := fun _ _ => HV_SUCCESS, destroy_ret := HV_SUCCESS }

/-- Witness for C8: tearing down `vmOneMapping` under an all-success backend
unmaps its mapping and then destroys. -/
theorem C8_drop_unmaps_all_then_destroys_witness :
    (∀ m ∈ vmOneMapping.mapping_list,
      allSuccessOracle.unmap_ret m.address m.size = HV_SUCCESS) ∧
    allSuccessOracle.destroy_ret = HV_SUCCESS ∧
    vmOneMapping.drop allSuccessOracle =
      (some { vmOneMapping with mapping_list := [] },
       vmOneMapping.mapping_list.map (fun m => BackendCall.unmapCall m.address m.size) ++
         [BackendCall.destroyCall]) :=
  ⟨by simp [vmOneMapping, allSuccessOracle], rfl,
   (C8_drop_unmaps_all_then_destroys vmOneMapping allSuccessOracle).1
     (by simp [vmOneMapping, allSuccessOracle]) rfl⟩

/-- One step either issues no allocation handle and keeps the allocation
counter, or issues exactly the next counter value and advances the counter to
it (the u64 wrap cannot fire below the modulus). -/
theorem step_alloc_issued (vm : VirtualMachine) (op : VmOp)
    (hb : vm.allocation_counter + 1 < U64_MOD) :
    ((VmOp.step vm op).2.1 = [] ∧
      (VmOp.step vm op).1.allocation_counter = vm.allocation_counter) ∨
    ((VmOp.step vm op).2.1 = [vm.allocation_counter + 1] ∧
      (VmOp.step vm op).1.allocation_counter = vm.allocation_counter + 1) := by
  have hmod : Counter.get_next_value vm.allocation_counter = vm.allocation_counter + 1 :=
    Nat.mod_eq_of_lt hb
  cases op with
  | allocOp size r =>
      right
      exact ⟨by rw [show (VmOp.step vm (.allocOp size r)).2.1 =
          [Counter.get_next_value vm.allocation_counter] from rfl, hmod],
        by rw [show (VmOp.step vm (.allocOp size r)).1.allocation_counter =
          Counter.get_next_value vm.allocation_counter from rfl, hmod]⟩
  | deallocOp h =>
      left
      refine ⟨rfl, ?_⟩
      show (vm.deallocate h).vm.allocation_counter = vm.allocation_counter
      unfold VirtualMachine.deallocate
      cases hf : vm.find_allocation_by_handle h with
      | error e => rfl
      | ok q =>
          obtain ⟨i, a⟩ := q
          cases hm : vm.is_allocation_mapped h <;> simp [hm]
  | mapOp ah ga p ret =>
      left
      refine ⟨rfl, ?_⟩
      show (vm.map ah ga p ret).vm.allocation_counter = vm.allocation_counter
      unfold VirtualMachine.map
      cases hf : vm.find_allocation_by_handle ah with
      | error e => rfl
      | ok q =>
          obtain ⟨i, a⟩ := q
          cases hc : convert_hv_return ret with
          | error e => simp
          | ok u => simp
  | unmapOp mh ret =>
      left
      refine ⟨rfl, ?_⟩
      show (vm.unmap mh ret).vm.allocation_counter = vm.allocation_counter
      unfold VirtualMachine.unmap
      cases hf : vm.find_mapping_by_handle mh with
      | error e => rfl
      | ok q =>
          obtain ⟨i, m⟩ := q
          cases hc : convert_hv_return ret with
          | error e => simp
          | ok u => simp
  | reprotectOp mh p ret =>
      left
      refine ⟨rfl, ?_⟩
      show (vm.reprotect mh p ret).vm.allocation_counter = vm.allocation_counter
      unfold VirtualMachine.reprotect
      cases hf : vm.find_mapping_by_handle mh with
      | error e => rfl
      | ok q =>
          obtain ⟨i, m⟩ := q
          cases hc : convert_hv_return ret with
          | error e => simp
          | ok u => simp

/-- One step either issues no mapping handle and keeps the mapping counter,
or (a successful `map`) issues exactly the next counter value and advances
the counter to it. -/
theorem step_map_issued (vm : VirtualMachine) (op : VmOp)
    (hb : vm.mapping_counter + 1 < U64_MOD) :
    ((VmOp.step vm op).2.2 = [] ∧
      (VmOp.step vm op).1.mapping_counter = vm.mapping_counter) ∨
    ((VmOp.step vm op).2.2 = [vm.mapping_counter + 1] ∧
      (VmOp.step vm op).1.mapping_counter = vm.mapping_counter + 1) := by
  have hmod : Counter.get_next_value vm.mapping_counter = vm.mapping_counter + 1 :=
    Nat.mod_eq_of_lt hb
  cases op with
  | allocOp size r => exact Or.inl ⟨rfl, rfl⟩
  | deallocOp h =>
      left
      refine ⟨rfl, ?_⟩
      show (vm.deallocate h).vm.mapping_counter = vm.mapping_counter
      unfold VirtualMachine.deallocate
      cases hf : vm.find_allocation_by_handle h with
      | error e => rfl
      | ok q =>
          obtain ⟨i, a⟩ := q
          cases hm : vm.is_allocation_mapped h <;> simp [hm]
  | mapOp ah ga p ret =>
      cases hf : vm.find_allocation_by_handle ah with
      | error e =>
          left
          have hm : vm.map ah ga p ret = { res := .error e, vm := vm, calls := [] } := by
            unfold VirtualMachine.map
            rw [hf]
          constructor
          · show (match (vm.map ah ga p ret).res with
                | .ok h => [h] | .error _ => []) = []
            rw [hm]
          · show (vm.map ah ga p ret).vm.mapping_counter = vm.mapping_counter
            rw [hm]
      | ok q =>
          obtain ⟨i, a⟩ := q
          cases hc : convert_hv_return ret with
          | error e =>
              left
              have hm : vm.map ah ga p ret =
                  { res := .error e, vm := vm,
                    calls := [BackendCall.mapCall ga a.data.length
                      (hv_memory_flags_of p)] } := by
                unfold VirtualMachine.map
                rw [hf, hc]
              constructor
              · show (match (vm.map ah ga p ret).res with
                    | .ok h => [h] | .error _ => []) = []
                rw [hm]
              · show (vm.map ah ga p ret).vm.mapping_counter = vm.mapping_counter
                rw [hm]
          | ok u =>
              right
              have hm : vm.map ah ga p ret =
                  { res := .ok (Counter.get_next_value vm.mapping_counter)
                    vm := { vm with
                              mapping_counter := Counter.get_next_value vm.mapping_counter
                              mapping_list := vm.mapping_list ++
                                [{ allocation_handle := ah
                                   mapping_handle := Counter.get_next_value vm.mapping_counter
                                   address := ga
                                   size := a.data.length
                                   permission := p }] }
                    calls := [BackendCall.mapCall ga a.data.length
                      (hv_memory_flags_of p)] } := by
                unfold VirtualMachine.map
                rw [hf, hc]
              constructor
              · show (match (vm.map ah ga p ret).res with
                    | .ok h => [h] | .error _ => []) = [vm.mapping_counter + 1]
                rw [hm]
                simp [hmod]
              · show (vm.map ah ga p ret).vm.mapping_counter = vm.mapping_counter + 1
                rw [hm]
                exact hmod
  | unmapOp mh ret =>
      left
      refine ⟨rfl, ?_⟩
      show (vm.unmap mh ret).vm.mapping_counter = vm.mapping_counter
      unfold VirtualMachine.unmap
      cases hf : vm.find_mapping_by_handle mh with
      | error e => rfl
      | ok q =>
          obtain ⟨i, m⟩ := q
          cases hc : convert_hv_return ret with
          | error e => simp
          | ok u => simp
  | reprotectOp mh p ret =>
      left
      refine ⟨rfl, ?_⟩
      show (vm.reprotect mh p ret).vm.mapping_counter = vm.mapping_counter
      unfold VirtualMachine.reprotect
      cases hf : vm.find_mapping_by_handle mh with
      | error e => rfl
      | ok q =>
          obtain ⟨i, m⟩ := q
          cases hc : convert_hv_return ret with
          | error e => simp
          | ok u => simp

/-- Over any run short enough that the u64 counter cannot wrap, the issued
allocation handles are the consecutive integers starting right above the
initial counter, and the counter ends advanced by their number. -/
theorem runOps_alloc_side : ∀ (ops : List VmOp) (vm : VirtualMachine),
    vm.allocation_counter + ops.length < U64_MOD →
    (runOps vm ops).2.1 =
      List.range' (vm.allocation_counter + 1) (runOps vm ops).2.1.length ∧
    (runOps vm ops).1.allocation_counter =
      vm.allocation_counter + (runOps vm ops).2.1.length ∧
    (runOps vm ops).2.1.length ≤ ops.length := by
  intro ops
  induction ops with
  | nil => intro vm _; simp [runOps]
  | cons op rest ih =>
      intro vm hb
      have hb1 : vm.allocation_counter + 1 < U64_MOD := by
        simp at hb
        omega
      have hrun : runOps vm (op :: rest) =
          ((runOps (VmOp.step vm op).1 rest).1,
           (VmOp.step vm op).2.1 ++ (runOps (VmOp.step vm op).1 rest).2.1,
           (VmOp.step vm op).2.2 ++ (runOps (VmOp.step vm op).1 rest).2.2) := rfl
      rcases step_alloc_issued vm op hb1 with ⟨hi, hc⟩ | ⟨hi, hc⟩
      · have hbr : (VmOp.step vm op).1.allocation_counter + rest.length < U64_MOD := by
          rw [hc]
          simp at hb
          omega
        obtain ⟨h1, h2, h3⟩ := ih (VmOp.step vm op).1 hbr
        rw [hc] at h1 h2
        refine ⟨?_, ?_, ?_⟩
        · rw [hrun]
          simp only [hi, List.nil_append]
          exact h1
        · rw [hrun]
          simp only [hi, List.nil_append]
          exact h2
        · rw [hrun]
          simp only [hi, List.nil_append, List.length_cons]
          omega
      · have hbr : (VmOp.step vm op).1.allocation_counter + rest.length < U64_MOD := by
          rw [hc]
          simp at hb
          omega
        obtain ⟨h1, h2, h3⟩ := ih (VmOp.step vm op).1 hbr
        rw [hc] at h1 h2
        refine ⟨?_, ?_, ?_⟩
        · rw [hrun]
          simp only [hi, List.cons_append, List.nil_append, List.length_cons]
          rw [List.range'_succ, ← h1]
        · rw [hrun]
          simp only [hi, List.cons_append, List.nil_append, List.length_cons]
          omega
        · rw [hrun]
          simp only [hi, List.cons_append, List.nil_append, List.length_cons]
          omega

/-- Mapping-side analog of `runOps_alloc_side`. -/
theorem runOps_map_side : ∀ (ops : List VmOp) (vm : VirtualMachine),
    vm.mapping_counter + ops.length < U64_MOD →
    (runOps vm ops).2.2 =
      List.range' (vm.mapping_counter + 1) (runOps vm ops).2.2.length ∧
    (runOps vm ops).1.mapping_counter =
      vm.mapping_counter + (runOps vm ops).2.2.length ∧
    (runOps vm ops).2.2.length ≤ ops.length := by
  intro ops
  induction ops with
  | nil => intro vm _; simp [runOps]
  | cons op rest ih =>
      intro vm hb
      have hb1 : vm.mapping_counter + 1 < U64_MOD := by
        simp at hb
        omega
      have hrun : runOps vm (op :: rest) =
          ((runOps (VmOp.step vm op).1 rest).1,
           (VmOp.step vm op).2.1 ++ (runOps (VmOp.step vm op).1 rest).2.1,
           (VmOp.step vm op).2.2 ++ (runOps (VmOp.step vm op).1 rest).2.2) := rfl
      rcases step_map_issued vm op hb1 with ⟨hi, hc⟩ | ⟨hi, hc⟩
      · have hbr : (VmOp.step vm op).1.mapping_counter + rest.length < U64_MOD := by
          rw [hc]
          simp at hb
          omega
        obtain ⟨h1, h2, h3⟩ := ih (VmOp.step vm op).1 hbr
        rw [hc] at h1 h2
        refine ⟨?_, ?_, ?_⟩
        · rw [hrun]
          simp only [hi, List.nil_append]
          exact h1
        · rw [hrun]
          simp only [hi, List.nil_append]
          exact h2
        · rw [hrun]
          simp only [hi, List.nil_append, List.length_cons]
          omega
      · have hbr : (VmOp.step vm op).1.mapping_counter + rest.length < U64_MOD := by
          rw [hc]
          simp at hb
          omega
        obtain ⟨h1, h2, h3⟩ := ih (VmOp.step vm op).1 hbr
        rw [hc] at h1 h2
        refine ⟨?_, ?_, ?_⟩
        · rw [hrun]
          simp only [hi, List.cons_append, List.nil_append, List.length_cons]
          rw [List.range'_succ, ← h1]
        · rw [hrun]
          simp only [hi, List.cons_append, List.nil_append, List.length_cons]
          omega
        · rw [hrun]
          simp only [hi, List.cons_append, List.nil_append, List.length_cons]
          omega

/-- Claim C3: over any operation sequence on a fresh machine short enough
that the u64 counters cannot wrap, the issued handles of each namespace are
strictly increasing in issue order (hence pairwise distinct, so a retired
handle is never issued again) and none of them is 0. -/
theorem C3_handles_unique_monotone_nonzero (ops : List VmOp)
    (hlen : ops.length < U64_MOD) :
    List.Pairwise (· < ·) (runOps VirtualMachine.fresh ops).2.1 ∧
    (runOps VirtualMachine.fresh ops).2.1.Nodup ∧
    (∀ x ∈ (runOps VirtualMachine.fresh ops).2.1, 0 < x) ∧
    List.Pairwise (· < ·) (runOps VirtualMachine.fresh ops).2.2 ∧
    (runOps VirtualMachine.fresh ops).2.2.Nodup ∧
    (∀ x ∈ (runOps VirtualMachine.fresh ops).2.2, 0 < x) := by
  have hA := runOps_alloc_side ops VirtualMachine.fresh
    (by show 0 + ops.length < U64_MOD; omega)
  have hM := runOps_map_side ops VirtualMachine.fresh
    (by show 0 + ops.length < U64_MOD; omega)
  refine ⟨?_, ?_, ?_, ?_, ?_, ?_⟩
  · rw [hA.1]
    exact List.pairwise_lt_range' _ _
  · rw [hA.1]
    exact List.nodup_range' _ _
  · intro x hx
    rw [hA.1] at hx
    have := (List.mem_range'_1.mp hx).1
    omega
  · rw [hM.1]
    exact List.pairwise_lt_range' _ _
  · rw [hM.1]
    exact List.nodup_range' _ _
  · intro x hx
    rw [hM.1] at hx
    have := (List.mem_range'_1.mp hx).1
    omega

/-- Witness for C3 on a five-operation sequence mixing allocation cycles and
a successful map. -/
theorem C3_handles_unique_monotone_nonzero_witness :
    (List.length [VmOp.allocOp 1 true, VmOp.deallocOp 1, VmOp.allocOp 1 true,
      VmOp.mapOp 2 0x20000 MemoryPermission.READ HV_SUCCESS, VmOp.unmapOp 1 HV_SUCCESS]
      < U64_MOD) ∧
    (List.Pairwise (· < ·) (runOps VirtualMachine.fresh
        [VmOp.allocOp 1 true, VmOp.deallocOp 1, VmOp.allocOp 1 true,
         VmOp.mapOp 2 0x20000 MemoryPermission.READ HV_SUCCESS,
         VmOp.unmapOp 1 HV_SUCCESS]).2.1 ∧
     (runOps VirtualMachine.fresh
        [VmOp.allocOp 1 true, VmOp.deallocOp 1, VmOp.allocOp 1 true,
         VmOp.mapOp 2 0x20000 MemoryPermission.READ HV_SUCCESS,
         VmOp.unmapOp 1 HV_SUCCESS]).2.1.Nodup ∧
     (∀ x ∈ (runOps VirtualMachine.fresh
        [VmOp.allocOp 1 true, VmOp.deallocOp 1, VmOp.allocOp 1 true,
         VmOp.mapOp 2 0x20000 MemoryPermission.READ HV_SUCCESS,
         VmOp.unmapOp 1 HV_SUCCESS]).2.1, 0 < x) ∧
     List.Pairwise (· < ·) (runOps VirtualMachine.fresh
        [VmOp.allocOp 1 true, VmOp.deallocOp 1, VmOp.allocOp 1 true,
         VmOp.mapOp 2 0x20000 MemoryPermission.READ HV_SUCCESS,
         VmOp.unmapOp 1 HV_SUCCESS]).2.2 ∧
     (runOps VirtualMachine.fresh
        [VmOp.allocOp 1 true, VmOp.deallocOp 1, VmOp.allocOp 1 true,
         VmOp.mapOp 2 0x20000 MemoryPermission.READ HV_SUCCESS,
         VmOp.unmapOp 1 HV_SUCCESS]).2.2.Nodup ∧
     (∀ x ∈ (runOps VirtualMachine.fresh
        [VmOp.allocOp 1 true, VmOp.deallocOp 1, VmOp.allocOp 1 true,
         VmOp.mapOp 2 0x20000 MemoryPermission.READ HV_SUCCESS,
         VmOp.unmapOp 1 HV_SUCCESS]).2.2, 0 < x)) :=
  ⟨by decide,
   C3_handles_unique_monotone_nonzero
     [VmOp.allocOp 1 true, VmOp.deallocOp 1, VmOp.allocOp 1 true,
      VmOp.mapOp 2 0x20000 MemoryPermission.READ HV_SUCCESS,
      VmOp.unmapOp 1 HV_SUCCESS] (by decide)⟩

end Ahv
